import Mathlib

/-!
Verification development for the document ingestion and classification
pipeline in `src/app.py` (a Flask service that classifies an uploaded HR
document by keyword scoring of its extracted text).

The embedding is shallow:

* Python strings are Lean `String`s; `str.count` is modelled exactly
  (non-overlapping left-to-right substring scan, `len+1` for the empty
  needle) by `pyCount`.
* Python float arithmetic on the small decimal constants involved
  (`0.05`, `0.45`, `0.50`, `0.55`, `0.60`, `0.95`, division by `100`,
  `round(_, 2)`) is modelled by exact rational arithmetic on `ℚ`;
  `round(x, 2)` is modelled by round-half-to-even at two decimals.
* Effectful collaborators (Tesseract OCR calls, the filesystem, the HTTP
  layer) are modelled by explicit outcome values: an OCR call either
  times out, raises a `TesseractError`, raises some other exception, or
  returns data; the request handler's world records whether a file was
  supplied, whether saving the staged copy raised, and the results of
  the (total) readability check and text extraction.
-/

namespace App

/-- Fuel-driven scan implementing Python `str.count` for a non-empty
needle `k`: walk the text left to right; at each position where `k` is a
prefix, count one occurrence and resume after it (non-overlapping),
otherwise advance one character.  The fuel is the length of the scanned
list, which every recursive call strictly decreases, so the fuel never
runs out on the initial call of `pyCount`. -/
def countLoop (k : List Char) : Nat → List Char → Nat
  | 0, _ => 0
  | _ + 1, [] => 0
  | fuel + 1, c :: rest =>
    if List.isPrefixOf k (c :: rest) then
      1 + countLoop k fuel (List.drop (k.length - 1) rest)
    else
      countLoop k fuel rest

/-- Python `text.count(k)` (src/app.py line 188): number of
non-overlapping occurrences of `k` in `text`; Python returns
`len(text) + 1` when the needle is empty. -/
def pyCount (text k : String) : Nat :=
  if k.toList.isEmpty then text.toList.length + 1
  else countLoop k.toList text.toList.length text.toList

/-- The static rule set of `classify_by_content` (src/app.py lines
168-184), in the dict's insertion order. -/
def rules : List (String × List String) :=
  [ ("resume", ["education", "skills", "work experience", "objective", "personal data"]),
    ("birth_cert", ["certificate of live birth", "date of birth", "place of birth"]),
    ("tin", ["tin", "bureau of internal revenue", "tax identification number"]),
    ("sss", ["sss number", "social security system"]),
    ("philhealth", ["philhealth", "insurance corporation"]),
    ("pagibig", ["pag-ibig", "hdmf"]),
    ("contract", ["agreement", "terms and conditions", "shall"]),
    ("medical_clearance", ["medical clearance", "fit to work"]),
    ("memo", ["memorandum", "subject:"]),
    ("incident_report", ["incident", "incident occurred"]),
    ("disciplinary_action", ["disciplinary action", "violation"]),
    ("commendation", ["commendation", "outstanding performance"]),
    ("exit_letter", ["resignation", "last working day"]),
    ("interview", ["exit interview"]),
    ("clearance", ["clearance form", "no pending accountability"]) ]

/-- Score of one category: `sum(text.count(k) for k in keywords)`
(src/app.py line 188). -/
def keywordScore (text : String) (kws : List String) : Nat :=
  (kws.map fun k => pyCount text k).sum

/-- The `scores` dict of `classify_by_content` (src/app.py lines
186-188), as an association list in the rule set's insertion order. -/
def scoredCategories (text : String) : List (String × Nat) :=
  rules.map fun p => (p.1, keywordScore text p.2)

/-- One comparison step of Python `max(scores, key=scores.get)`: the
running best is replaced only when the new candidate scores strictly
higher, so the first of several maximal entries wins. -/
def pickStep (best p : String × Nat) : String × Nat :=
  if best.2 < p.2 then p else best

/-- Python `max(scores, key=scores.get)` over a non-empty association
list, split into its head and tail (src/app.py line 190). -/
def pickBest (x : String × Nat) (xs : List (String × Nat)) : String × Nat :=
  xs.foldl pickStep x

/-- The `best_match` of `classify_by_content` together with its score
(src/app.py line 190).  The rule set is non-empty, so the `[]` branch is
unreachable. -/
def bestCategory (text : String) : String × Nat :=
  match scoredCategories text with
  | [] => ("others", 0)
  | x :: xs => pickBest x xs

/-- The content classifier `classify_by_content` (src/app.py lines
167-196): zero winning score classifies as `("others", 0.55)`, otherwise
the winning category with confidence `min(0.95, 0.6 + score * 0.05)`. -/
def classify_by_content (text : String) : String × ℚ :=
  let best := bestCategory text
  if best.2 = 0 then ("others", 55/100)
  else (best.1, min (95/100) (6/10 + (best.2 : ℚ) * (5/100)))

lemma bestCategory_cons {text : String} {x : String × Nat}
    {xs : List (String × Nat)} (h : scoredCategories text = x :: xs) :
    bestCategory text = pickBest x xs := by
  unfold bestCategory
  rw [h]

lemma pickStep_left_le (x y : String × Nat) : x.2 ≤ (pickStep x y).2 := by
  unfold pickStep
  split
  · omega
  · exact le_rfl

lemma pickStep_right_le (x y : String × Nat) : y.2 ≤ (pickStep x y).2 := by
  unfold pickStep
  split
  · exact le_rfl
  · omega

/-- The running maximum of `pickBest` bounds every element of the list. -/
lemma pickBest_ge (xs : List (String × Nat)) :
    ∀ x : String × Nat, ∀ q ∈ x :: xs, q.2 ≤ (pickBest x xs).2 := by
  induction xs with
  | nil =>
    intro x q hq
    rcases List.mem_singleton.mp hq with rfl
    exact le_rfl
  | cons y ys ih =>
    intro x q hq
    have hfold : pickBest x (y :: ys) = pickBest (pickStep x y) ys := rfl
    have hstep : (pickStep x y).2 ≤ (pickBest (pickStep x y) ys).2 :=
      ih (pickStep x y) (pickStep x y) (List.mem_cons_self _ _)
    rcases List.mem_cons.mp hq with rfl | hq'
    · exact hfold ▸ le_trans (pickStep_left_le q y) hstep
    · rcases List.mem_cons.mp hq' with rfl | hq''
      · exact hfold ▸ le_trans (pickStep_right_le x q) hstep
      · exact hfold ▸ ih (pickStep x y) q (List.mem_cons_of_mem _ hq'')

/-- First-seen tie-break: the element `pickBest` returns splits the list
so that everything strictly before it scores strictly less. -/
lemma pickBest_first (xs : List (String × Nat)) :
    ∀ x : String × Nat, ∃ l₁ l₂,
      x :: xs = l₁ ++ pickBest x xs :: l₂
      ∧ ∀ q ∈ l₁, q.2 < (pickBest x xs).2 := by
  induction xs with
  | nil =>
    intro x
    exact ⟨[], [], rfl, by intro q hq; cases hq⟩
  | cons y ys ih =>
    intro x
    have hfold : pickBest x (y :: ys) = pickBest (pickStep x y) ys := rfl
    by_cases hxy : x.2 < y.2
    · have hstep : pickStep x y = y := by simp [pickStep, hxy]
      obtain ⟨l₁, l₂, heq, hlt⟩ := ih y
      have hyb : y.2 ≤ (pickBest y ys).2 :=
        pickBest_ge ys y y (List.mem_cons_self _ _)
      refine ⟨x :: l₁, l₂, ?_, ?_⟩
      · rw [hfold, hstep, List.cons_append, ← heq]
      · intro q hq
        rcases List.mem_cons.mp hq with rfl | hq'
        · rw [hfold, hstep]
          omega
        · rw [hfold, hstep]
          exact hlt q hq'
    · have hstep : pickStep x y = x := by simp [pickStep, hxy]
      obtain ⟨l₁, l₂, heq, hlt⟩ := ih x
      cases l₁ with
      | nil =>
        have hx : x = pickBest x ys := by
          simpa using congrArg (fun l => l.headI) heq
        refine ⟨[], y :: ys, ?_, by intro q hq; cases hq⟩
        rw [hfold, hstep, ← hx, List.nil_append]
      | cons a l₁' =>
        have ha : x = a := by
          simpa using congrArg (fun l => l.headI) heq
        subst ha
        have hys : ys = l₁' ++ pickBest x ys :: l₂ := by
          have := congrArg List.tail heq
          simpa using this
        refine ⟨x :: y :: l₁', l₂, ?_, ?_⟩
        · rw [hfold, hstep]
          nth_rewrite 1 [hys]
          simp
        · intro q hq
          have hxlt : x.2 < (pickBest x ys).2 :=
            hlt x (List.mem_cons_self _ _)
          rcases List.mem_cons.mp hq with rfl | hq'
          · rw [hfold, hstep]; exact hxlt
          · rcases List.mem_cons.mp hq' with rfl | hq''
            · rw [hfold, hstep]
              have : q.2 ≤ x.2 := by omega
              exact lt_of_le_of_lt this hxlt
            · rw [hfold, hstep]
              exact hlt q (List.mem_cons_of_mem _ hq'')

/-- The winner returned by `pickBest` is an element of the list. -/
lemma pickBest_mem (x : String × Nat) (xs : List (String × Nat)) :
    pickBest x xs ∈ x :: xs := by
  obtain ⟨l₁, l₂, heq, _⟩ := pickBest_first xs x
  rw [heq]
  exact List.mem_append_right _ (List.mem_cons_self _ _)

/-- C1: for every text in which no keyword of any category occurs (the
winning score is 0), `classify_by_content` returns exactly the pair
`("others", 0.55)`. -/
theorem classifier_zero_match (text : String)
    (h : ∀ p ∈ rules, ∀ k ∈ p.2, pyCount text k = 0) :
    classify_by_content text = ("others", 55/100) := by
  have hall : ∀ q ∈ scoredCategories text, q.2 = 0 := by
    intro q hq
    obtain ⟨p, hp, rfl⟩ := List.mem_map.mp hq
    refine List.sum_eq_zero ?_
    intro n hn
    obtain ⟨k, hk, rfl⟩ := List.mem_map.mp hn
    exact h p hp k hk
  have hb : (bestCategory text).2 = 0 := by
    cases hsc : scoredCategories text with
    | nil =>
      unfold bestCategory
      rw [hsc]
    | cons x xs =>
      rw [bestCategory_cons hsc]
      exact hall _ (hsc ▸ pickBest_mem x xs)
  unfold classify_by_content
  simp [hb]

/-- Witness for C1 at the empty text, where no keyword occurs. -/
theorem classifier_zero_match_witness :
    classify_by_content "" = ("others", 55/100) :=
  classifier_zero_match "" (by decide)

/-- C2: for every text whose winning score is at least 1, the returned
confidence equals `min(0.95, 0.60 + 0.05 * score)`; this mapping is
monotonically non-decreasing in the score and never exceeds `0.95`. -/
theorem classifier_confidence_formula (text : String)
    (h : 1 ≤ (bestCategory text).2) :
    (classify_by_content text).2
      = min ((95 : ℚ)/100) (60/100 + ((bestCategory text).2 : ℚ) * (5/100))
    ∧ (∀ s t : ℕ, s ≤ t →
        min ((95 : ℚ)/100) (60/100 + (s : ℚ) * (5/100))
          ≤ min ((95 : ℚ)/100) (60/100 + (t : ℚ) * (5/100)))
    ∧ (classify_by_content text).2 ≤ 95/100 := by
  have hb : ¬ (bestCategory text).2 = 0 := by omega
  have hval : (classify_by_content text).2
      = min ((95 : ℚ)/100) (6/10 + ((bestCategory text).2 : ℚ) * (5/100)) := by
    unfold classify_by_content
    simp [hb]
  have hconst : (6 : ℚ)/10 = 60/100 := by norm_num
  refine ⟨by rw [hval, hconst], ?_, ?_⟩
  · intro s t hst
    have hcast : (s : ℚ) ≤ (t : ℚ) := by exact_mod_cast hst
    have : (60 : ℚ)/100 + (s : ℚ) * (5/100) ≤ 60/100 + (t : ℚ) * (5/100) := by
      nlinarith
    exact min_le_min le_rfl this
  · rw [hval]
    exact min_le_left _ _

/-- Witness for C2 at the text `"education"`, whose winning score is 1. -/
theorem classifier_confidence_formula_witness :
    (classify_by_content "education").2
      = min ((95 : ℚ)/100) (60/100 + ((bestCategory "education").2 : ℚ) * (5/100))
    ∧ (∀ s t : ℕ, s ≤ t →
        min ((95 : ℚ)/100) (60/100 + (s : ℚ) * (5/100))
          ≤ min ((95 : ℚ)/100) (60/100 + (t : ℚ) * (5/100)))
    ∧ (classify_by_content "education").2 ≤ 95/100 :=
  classifier_confidence_formula "education" (by decide)

/-- C8: the classifier selects the category with the strictly highest
keyword-occurrence score; when several categories tie for the highest
score, the first one in the rule set's insertion order wins. -/
theorem classifier_first_max_tiebreak (text : String)
    (h : (bestCategory text).2 ≠ 0) :
    (classify_by_content text).1 = (bestCategory text).1
    ∧ (∀ q ∈ scoredCategories text, q.2 ≤ (bestCategory text).2)
    ∧ ∃ l₁ l₂, scoredCategories text = l₁ ++ bestCategory text :: l₂
        ∧ ∀ q ∈ l₁, q.2 < (bestCategory text).2 := by
  cases hsc : scoredCategories text with
  | nil =>
    exfalso
    apply h
    unfold bestCategory
    rw [hsc]
  | cons x xs =>
    have hbest := bestCategory_cons hsc
    refine ⟨?_, ?_, ?_⟩
    · unfold classify_by_content
      simp [h]
    · intro q hq
      rw [hbest]
      exact pickBest_ge xs x q hq
    · obtain ⟨l₁, l₂, heq, hlt⟩ := pickBest_first xs x
      exact ⟨l₁, l₂, by rw [hbest]; exact heq, by rw [hbest]; exact hlt⟩

/-- The size cap of the image preprocessor (src/app.py line 24). -/
def MAX_DIM : Nat := 1600

/-- Size behaviour of `prep_image_for_ocr` (src/app.py lines 26-46): if
the longest side exceeds `MAX_DIM`, both dimensions are multiplied by
`MAX_DIM / max(w, h)` and truncated with `int(...)`; otherwise the image
is left at its original size.  The float arithmetic of
`int(w * (MAX_DIM / float(max(w, h))))` is modelled exactly as the
rational product truncated toward zero, which for non-negative values is
the natural-number floor division `w * MAX_DIM / max w h`. -/
def prep_image_for_ocr (w h : Nat) : Nat × Nat :=
  if MAX_DIM < max w h then (w * MAX_DIM / max w h, h * MAX_DIM / max w h)
  else (w, h)

lemma scaled_le (w m : Nat) (hm : 0 < m) (hw : w ≤ m) :
    w * MAX_DIM / m ≤ MAX_DIM := by
  calc w * MAX_DIM / m ≤ m * MAX_DIM / m :=
        Nat.div_le_div_right (Nat.mul_le_mul_right _ hw)
    _ = MAX_DIM := Nat.mul_div_cancel_left _ hm

/-- C7: the preprocessor downscales only when `max(w, h) > 1600`, scaling
both dimensions by `1600 / max(w, h)`, so the output's longest side is at
most 1600; it never upscales, and a 3000 by 2000 input yields a
1600 by 1066 image (which is 1600 by 1067 or smaller). -/
theorem prep_image_downscale_policy (w h : Nat) (hover : MAX_DIM < max w h) :
    prep_image_for_ocr w h = (w * MAX_DIM / max w h, h * MAX_DIM / max w h)
    ∧ max (prep_image_for_ocr w h).1 (prep_image_for_ocr w h).2 ≤ MAX_DIM
    ∧ (∀ w2 h2 : Nat, max w2 h2 ≤ MAX_DIM → prep_image_for_ocr w2 h2 = (w2, h2))
    ∧ prep_image_for_ocr 3000 2000 = (1600, 1066) := by
  have hm : 0 < max w h := lt_trans (by norm_num [MAX_DIM]) hover
  have heq : prep_image_for_ocr w h
      = (w * MAX_DIM / max w h, h * MAX_DIM / max w h) := by
    unfold prep_image_for_ocr
    rw [if_pos hover]
  refine ⟨heq, ?_, ?_, by decide⟩
  · rw [heq]
    exact max_le (scaled_le w _ hm (le_max_left w h))
      (scaled_le h _ hm (le_max_right w h))
  · intro w2 h2 hle
    unfold prep_image_for_ocr
    rw [if_neg (Nat.not_lt.mpr hle)]

/-- Witness for C7 at the oversized input 3000 by 2000. -/
theorem prep_image_downscale_policy_witness :
    prep_image_for_ocr 3000 2000
        = (3000 * MAX_DIM / max 3000 2000, 2000 * MAX_DIM / max 3000 2000)
    ∧ max (prep_image_for_ocr 3000 2000).1 (prep_image_for_ocr 3000 2000).2 ≤ MAX_DIM
    ∧ (∀ w2 h2 : Nat, max w2 h2 ≤ MAX_DIM → prep_image_for_ocr w2 h2 = (w2, h2))
    ∧ prep_image_for_ocr 3000 2000 = (1600, 1066) :=
  prep_image_downscale_policy 3000 2000 (by decide)

/-- C10: the truncating dimension computation can produce a zero-pixel
side; for a 1 by 5000 input (which is oversized, so the downscale branch
runs) the computed width is `int(1 * 1600/5000) = 0`, so the preprocessor
does not guarantee that both output dimensions are at least 1. -/
theorem prep_truncation_zero_dimension :
    MAX_DIM < max 1 5000 ∧ prep_image_for_ocr 1 5000 = (0, 1600) := by
  decide

/-- Floor of a rational number, computed from the reduced fraction with
integer floor division. -/
def floorQ (q : ℚ) : ℤ := Int.fdiv q.num q.den

/-- Round half to even to the nearest integer, the rounding used by
Python's builtin `round`. -/
def rhe (q : ℚ) : ℤ :=
  let f := floorQ q
  if q - f < 1/2 then f
  else if 1/2 < q - f then f + 1
  else if f % 2 = 0 then f else f + 1

/-- Python `round(x, 2)` on the exact rational model: round half to even
at two decimal places. -/
def round2 (q : ℚ) : ℚ := ((rhe (q * 100) : ℤ) : ℚ) / 100

lemma floorQ_intCast (z : ℤ) : floorQ (z : ℚ) = z := by
  simp [floorQ, Rat.num_intCast, Rat.den_intCast, Int.fdiv_one]

lemma rhe_intCast (z : ℤ) : rhe (z : ℚ) = z := by
  unfold rhe
  rw [floorQ_intCast]
  norm_num

/-- Rounding to two decimals fixes every rational with denominator 100. -/
lemma round2_div100 (z : ℤ) : round2 ((z : ℚ)/100) = (z : ℚ)/100 := by
  unfold round2
  rw [div_mul_cancel₀ _ (by norm_num : (100:ℚ) ≠ 0), rhe_intCast]

/-- One iteration of the confidence-collecting loop in
`check_image_readability` (src/app.py lines 91-98): a token whose `conf`
field parses as a number (`some v` here; `none` models a `float(...)`
that raised) is appended when it is non-negative. -/
def confStep (acc : List ℚ) (c : Option ℚ) : List ℚ :=
  match c with
  | some v => if 0 ≤ v then acc ++ [v] else acc
  | none => acc

/-- The `confidences` list collected by the loop (src/app.py lines
91-98). -/
def parsedConfs (raw : List (Option ℚ)) : List ℚ :=
  raw.foldl confStep []

lemma parsedConfs_go (raw : List (Option ℚ)) : ∀ acc : List ℚ,
    raw.foldl confStep acc
      = acc ++ (raw.filterMap id).filter (fun v => decide (0 ≤ v)) := by
  induction raw with
  | nil => intro acc; simp
  | cons c t ih =>
    intro acc
    cases c with
    | none => simpa using ih acc
    | some v =>
      by_cases hv : (0 : ℚ) ≤ v
      · simp [List.foldl_cons, confStep, hv, ih (acc ++ [v])]
      · simp [List.foldl_cons, confStep, hv, ih acc]

/-- The collected confidences are exactly the parseable, non-negative
token confidences, in order. -/
lemma parsedConfs_eq (raw : List (Option ℚ)) :
    parsedConfs raw = (raw.filterMap id).filter (fun v => decide (0 ≤ v)) := by
  simpa using parsedConfs_go raw []

/-- The `avg_conf` value (src/app.py line 100): mean of the collected
confidences, or 0 when none were collected. -/
def avgConf (raw : List (Option ℚ)) : ℚ :=
  if parsedConfs raw = [] then 0
  else (parsedConfs raw).sum / ((parsedConfs raw).length : ℚ)

/-- The `normalized_conf` value (src/app.py line 101): the average
confidence divided by 100 and rounded to two decimal places. -/
def normConf (raw : List (Option ℚ)) : ℚ := round2 (avgConf raw / 100)

/-- Number of alphanumeric characters of the OCR text, the `text_length`
value (src/app.py line 104). -/
def alnumLength (t : String) : Nat := (t.toList.filter Char.isAlphanum).length

/-- The OCR Quality Report (src/app.py lines 116-121 and the error
returns of `check_image_readability`); `ocr_confidence` and
`text_length` are `none` only in the non-image sentinel of the
`/classify` route. -/
structure QReport where
  readable : Bool
  ocr_confidence : Option ℚ
  text_length : Option Nat
  quality_reason : String
deriving DecidableEq

/-- The decision core of `check_image_readability` (src/app.py lines
100-121), given the token confidences of `image_to_data` and the text of
the full-text OCR pass. -/
def readabilityDecision (raw : List (Option ℚ)) (text : String) : QReport :=
  let nc := normConf raw
  let tl := alnumLength text
  if nc < 45/100 then ⟨false, some nc, some tl, "low_ocr_confidence"⟩
  else if tl < 25 then ⟨false, some nc, some tl, "too_little_text"⟩
  else ⟨true, some nc, some tl, "ok"⟩

/-- C4: the Readability Gate decides in order — normalized confidence
below 0.45 gives `low_ocr_confidence`, else fewer than 25 alphanumeric
characters gives `too_little_text`, else `ok` — where the normalized
confidence is the mean of the token confidences that parse and are
non-negative (0 if none), divided by 100 and rounded to 2 decimals. -/
theorem readability_gate_decision (raw : List (Option ℚ)) (text : String) :
    normConf raw
      = round2 ((if (raw.filterMap id).filter (fun v => decide (0 ≤ v)) = []
          then 0
          else ((raw.filterMap id).filter (fun v => decide (0 ≤ v))).sum
            / (((raw.filterMap id).filter (fun v => decide (0 ≤ v))).length : ℚ))
          / 100)
    ∧ (normConf raw < 45/100 →
        readabilityDecision raw text
          = ⟨false, some (normConf raw), some (alnumLength text), "low_ocr_confidence"⟩)
    ∧ (¬ normConf raw < 45/100 → alnumLength text < 25 →
        readabilityDecision raw text
          = ⟨false, some (normConf raw), some (alnumLength text), "too_little_text"⟩)
    ∧ (¬ normConf raw < 45/100 → ¬ alnumLength text < 25 →
        readabilityDecision raw text
          = ⟨true, some (normConf raw), some (alnumLength text), "ok"⟩) := by
  refine ⟨?_, ?_, ?_, ?_⟩
  · unfold normConf avgConf
    rw [parsedConfs_eq]
  · intro hlow
    unfold readabilityDecision
    rw [if_pos hlow]
  · intro hhigh hshort
    unfold readabilityDecision
    rw [if_neg hhigh, if_pos hshort]
  · intro hhigh hlong
    unfold readabilityDecision
    rw [if_neg hhigh, if_neg hlong]

/-- Witness for C4: one parseable confidence of 90 (normalized 0.90), one
unparseable token, one negative sentinel, and 36 alphanumeric characters
of recovered text reach the `ok` branch. -/
theorem readability_gate_decision_witness :
    readabilityDecision [some 90, none, some (-1)]
        "abcdefghijklmnopqrstuvwxyz 0123456789"
      = ⟨true, some (normConf [some 90, none, some (-1)]),
          some (alnumLength "abcdefghijklmnopqrstuvwxyz 0123456789"), "ok"⟩ :=
  (readability_gate_decision [some 90, none, some (-1)]
      "abcdefghijklmnopqrstuvwxyz 0123456789").2.2.2
    (by
      have hp : parsedConfs [some 90, none, some (-1)] = [90] := by
        norm_num [parsedConfs, confStep]
      have ha : avgConf [some 90, none, some (-1)] = 90 := by
        norm_num [avgConf, hp]
      have hn : normConf [some 90, none, some (-1)] = 90/100 := by
        have h90 := round2_div100 90
        push_cast at h90
        rw [normConf, ha]
        exact h90
      rw [hn]
      norm_num)
    (by decide)

/-- Outcome of one guarded call into the OCR backend: a wall-clock
timeout (pytesseract raises `RuntimeError`), an engine failure
(`TesseractError`), any other exception, or a successful result. -/
inductive OcrCall (α : Type) where
  | timeout : OcrCall α
  | tessErr : OcrCall α
  | raised : OcrCall α
  | ok : α → OcrCall α
deriving DecidableEq

/-- The effect environment of one `check_image_readability` request:
whether `prep_image_for_ocr` raised (decode error), and the outcomes of
the `image_to_data` and `image_to_string` calls. -/
structure GateWorld where
  prepRaises : Bool
  dataCall : OcrCall (List (Option ℚ))
  strCall : OcrCall String
deriving DecidableEq

/-- The fixed error shape returned by the gate's handlers (src/app.py
lines 77-89 and 123-129). -/
def errReport (reason : String) : QReport :=
  ⟨false, some 0, some 0, reason⟩

/-- The helper `safe_ocr_string` (src/app.py lines 48-58): timeout
(`RuntimeError`) and `TesseractError` are caught and give the empty
string; any other exception propagates (`none`). -/
def safe_ocr_string : OcrCall String → Option String
  | OcrCall.timeout => some ""
  | OcrCall.tessErr => some ""
  | OcrCall.raised => none
  | OcrCall.ok t => some t

/-- The gate `check_image_readability` (src/app.py lines 64-129) over its
effect environment: preprocessing failures and any exception escaping
the inner handlers are caught by the outer handler; the `image_to_data`
timeout and engine-error handlers return their dedicated reports;
otherwise the decision core runs on the collected data. -/
def check_image_readability (w : GateWorld) : QReport :=
  if w.prepRaises then errReport "ocr_processing_error"
  else
    match w.dataCall with
    | OcrCall.timeout => errReport "ocr_timeout"
    | OcrCall.tessErr => errReport "tesseract_error"
    | OcrCall.raised => errReport "ocr_processing_error"
    | OcrCall.ok raw =>
      match safe_ocr_string w.strCall with
      | none => errReport "ocr_processing_error"
      | some text => readabilityDecision raw text

/-- C5: the gate is a total function of its effect environment — it never
propagates an exception — and maps an `image_to_data` timeout to the
`ocr_timeout` report, an engine error to the `tesseract_error` report,
and any other exception (preprocessing, an unexpected exception in
either OCR call) to the `ocr_processing_error` report, all with zero
confidence and zero text length. -/
theorem gate_error_mapping (w : GateWorld) :
    (w.prepRaises = false → w.dataCall = OcrCall.timeout →
      check_image_readability w = ⟨false, some 0, some 0, "ocr_timeout"⟩)
    ∧ (w.prepRaises = false → w.dataCall = OcrCall.tessErr →
      check_image_readability w = ⟨false, some 0, some 0, "tesseract_error"⟩)
    ∧ ((w.prepRaises = true ∨ w.dataCall = OcrCall.raised
          ∨ ((∃ raw, w.dataCall = OcrCall.ok raw) ∧ w.strCall = OcrCall.raised)) →
      check_image_readability w = ⟨false, some 0, some 0, "ocr_processing_error"⟩) := by
  rcases w with ⟨p, d, s⟩
  cases p <;> cases d <;> cases s <;>
    simp [check_image_readability, safe_ocr_string, errReport]

/-- Witness for C5: a timed-out `image_to_data` call with sound
preprocessing yields the `ocr_timeout` report. -/
theorem gate_error_mapping_witness :
    check_image_readability ⟨false, OcrCall.timeout, OcrCall.ok ""⟩
      = ⟨false, some 0, some 0, "ocr_timeout"⟩ :=
  (gate_error_mapping ⟨false, OcrCall.timeout, OcrCall.ok ""⟩).1 rfl rfl

/-- Witness for C8 at the text `"education"`, whose winning score is
non-zero. -/
theorem classifier_first_max_tiebreak_witness :
    (classify_by_content "education").1 = (bestCategory "education").1
    ∧ (∀ q ∈ scoredCategories "education", q.2 ≤ (bestCategory "education").2)
    ∧ ∃ l₁ l₂, scoredCategories "education" = l₁ ++ bestCategory "education" :: l₂
        ∧ ∀ q ∈ l₁, q.2 < (bestCategory "education").2 :=
  classifier_first_max_tiebreak "education" (by decide)

/-- The outbound result of the `/classify` route (src/app.py lines
202-252): the missing-file rejection, a successful classification merged
with the quality report, or the generic server-exception error. -/
inductive Response where
  | noFile : Response
  | success (document_type : String) (confidence : ℚ) (report : QReport) : Response
  | serverException : Response
deriving DecidableEq

/-- The effect environment of one `/classify` request: whether a file was
supplied, the lowercased filename extension, whether `file.save` into the
staged temporary file succeeded (it runs inside the `with` block after
`NamedTemporaryFile(delete=False)` has already created the file, so a
raise here leaves the staged file on disk and is caught by the route's
outer handler), whether `os.remove` would succeed, and the results of
the two total collaborators `check_image_readability` and
`extract_text`. -/
structure RouteWorld where
  hasFile : Bool
  ext : String
  saveOk : Bool
  removeOk : Bool
  gateReport : QReport
  extracted : String
deriving DecidableEq

/-- The fixed non-image sentinel report (src/app.py lines 215-220). -/
def notImageReport : QReport := ⟨true, none, none, "not_image"⟩

/-- The image-extension test of the route (src/app.py line 222). -/
def isImageExt (ext : String) : Bool :=
  ext == ".jpg" || ext == ".jpeg" || ext == ".png"

/-- ASCII whitespace as recognized by Python `str.strip` and
`str.isspace` (the model restricts to the ASCII range the pipeline
produces). -/
def isPySpace (c : Char) : Bool :=
  c == ' ' || c == '\t' || c == '\n' || c == '\r' || c == '\x0b' || c == '\x0c'

/-- Python `not text.strip()`: the text is empty or whitespace-only. -/
def stripIsEmpty (s : String) : Bool := s.toList.all isPySpace

/-- Observable outcome of one request: the HTTP-level response, whether a
temporary file was created on disk, and how many times `os.remove` was
invoked on it. -/
structure RouteResult where
  response : Response
  staged : Bool
  removeCalls : Nat
deriving DecidableEq

/-- The quality report merged into the response: the gate's report for
image extensions, the fixed sentinel otherwise (src/app.py lines
215-223). -/
def effectiveReport (w : RouteWorld) : QReport :=
  if isImageExt w.ext then w.gateReport else notImageReport

/-- The `/classify` route (src/app.py lines 202-252), parameterized by
the classifier it calls so that non-invocation of the classifier is
expressible.  With no file, the request is rejected before any staging.
Once the temporary file is created, a raise in `file.save` reaches the
outer handler, which returns the server-exception response without
removing the staged file.  After a successful save, both
`check_image_readability` and `extract_text` catch all their exceptions
(they are total), so control always reaches the single `os.remove` call
(line 228) — whose own failure is swallowed by `except: pass`, so the
outcome does not depend on `removeOk` — and then either the empty-text
short-circuit or the classifier. -/
def routeWith (cls : String → String × ℚ) (w : RouteWorld) : RouteResult :=
  if w.hasFile = false then ⟨Response.noFile, false, 0⟩
  else if w.saveOk = false then ⟨Response.serverException, true, 0⟩
  else if stripIsEmpty w.extracted then
    ⟨Response.success "others" (50/100) (effectiveReport w), true, 1⟩
  else
    ⟨Response.success (cls w.extracted).1 (round2 (cls w.extracted).2)
        (effectiveReport w), true, 1⟩

/-- The `/classify` route with its actual classifier
`classify_by_content`. -/
def classify (w : RouteWorld) : RouteResult :=
  routeWith classify_by_content w

/-- C3: for empty or whitespace-only extracted text the route does not
invoke the classifier (its outcome is the same for every classifier) and
returns document_type `"others"` with confidence exactly `0.50`,
regardless of file format; `0.50` is distinct from the `0.55` of the
zero-keyword-match case. -/
theorem empty_text_short_circuit (cls cls2 : String → String × ℚ)
    (w : RouteWorld) (hf : w.hasFile = true) (hs : w.saveOk = true)
    (he : stripIsEmpty w.extracted = true) :
    routeWith cls w = routeWith cls2 w
    ∧ (routeWith cls w).response
        = Response.success "others" (50/100) (effectiveReport w)
    ∧ ((50 : ℚ)/100 ≠ 55/100) := by
  refine ⟨?_, ?_, by norm_num⟩ <;> simp [routeWith, hf, hs, he]

/-- Witness for C3 at a PDF request whose extraction produced only
whitespace, compared against an arbitrary second classifier. -/
theorem empty_text_short_circuit_witness :
    routeWith classify_by_content ⟨true, ".pdf", true, true, notImageReport, " \n"⟩
      = routeWith (fun t => (t, 0)) ⟨true, ".pdf", true, true, notImageReport, " \n"⟩
    ∧ (routeWith classify_by_content
          ⟨true, ".pdf", true, true, notImageReport, " \n"⟩).response
        = Response.success "others" (50/100)
            (effectiveReport ⟨true, ".pdf", true, true, notImageReport, " \n"⟩)
    ∧ ((50 : ℚ)/100 ≠ 55/100) :=
  empty_text_short_circuit classify_by_content (fun t => (t, 0))
    ⟨true, ".pdf", true, true, notImageReport, " \n"⟩ rfl rfl (by decide)

/-- C6 counterexample: a request that stages its temporary copy (the
file is created by `NamedTemporaryFile`) and then raises inside
`file.save` takes the server-exception exit path with zero `os.remove`
calls — the staged file is not removed on that path, contradicting the
claim that it is removed exactly once on every exit path. -/
theorem temp_leak_on_save_exception :
    (classify ⟨true, ".txt", false, true, notImageReport, "hello"⟩).staged = true
    ∧ (classify ⟨true, ".txt", false, true, notImageReport, "hello"⟩).response
        = Response.serverException
    ∧ (classify ⟨true, ".txt", false, true, notImageReport, "hello"⟩).removeCalls
        = 0 :=
  ⟨rfl, rfl, rfl⟩

/-- C6 (amended): on every exit path on which the upload is successfully
saved into the staged temporary file — success, empty-text
short-circuit, or the removal itself failing — `os.remove` is invoked
exactly once and a failing removal is swallowed (the outcome is the same
whether the removal succeeds or not); no path ever removes the file more
than once.  But when `file.save` raises after the temporary file has
been created, the server-exception path returns without removing it. -/
theorem temp_removed_when_save_succeeds (w : RouteWorld)
    (hf : w.hasFile = true) (hs : w.saveOk = true) :
    (classify w).removeCalls = 1
    ∧ (∀ b1 b2 : Bool,
        classify ⟨w.hasFile, w.ext, w.saveOk, b1, w.gateReport, w.extracted⟩
          = classify ⟨w.hasFile, w.ext, w.saveOk, b2, w.gateReport, w.extracted⟩)
    ∧ (∀ w2 : RouteWorld, (classify w2).removeCalls ≤ 1) := by
  refine ⟨?_, ?_, ?_⟩
  · by_cases hse : stripIsEmpty w.extracted = true <;>
      simp [classify, routeWith, hf, hs, hse]
  · intro b1 b2
    rfl
  · intro w2
    by_cases h1 : w2.hasFile = false <;>
      by_cases h2 : w2.saveOk = false <;>
      by_cases h3 : stripIsEmpty w2.extracted = true <;>
      simp [classify, routeWith, h1, h2, h3]

/-- Witness for C6 (amended) at a plain-text request whose save
succeeded. -/
theorem temp_removed_when_save_succeeds_witness :
    (classify ⟨true, ".txt", true, true, notImageReport, "hello"⟩).removeCalls = 1
    ∧ (∀ b1 b2 : Bool,
        classify ⟨true, ".txt", true, b1, notImageReport, "hello"⟩
          = classify ⟨true, ".txt", true, b2, notImageReport, "hello"⟩)
    ∧ (∀ w2 : RouteWorld, (classify w2).removeCalls ≤ 1) :=
  temp_removed_when_save_succeeds
    ⟨true, ".txt", true, true, notImageReport, "hello"⟩ rfl rfl

lemma bestCategory_mem (text : String)
    (hb : (bestCategory text).2 ≠ 0) :
    bestCategory text ∈ scoredCategories text := by
  cases hsc : scoredCategories text with
  | nil =>
    exfalso
    apply hb
    unfold bestCategory
    rw [hsc]
  | cons x xs =>
    rw [bestCategory_cons hsc]
    exact pickBest_mem x xs

lemma round2_natCast_div100 (n : ℕ) : round2 ((n : ℚ)/100) = (n : ℚ)/100 := by
  have h := round2_div100 (n : ℤ)
  push_cast at h
  exact h

/-- Bounds of the saturating confidence map after rounding: for a winning
score of at least one keyword hit, the rounded confidence lies in
`[0.65, 0.95]`. -/
lemma round2_conf_bounds (k : ℕ) (hk : 1 ≤ k) :
    (65:ℚ)/100 ≤ round2 (min ((95:ℚ)/100) (6/10 + (k:ℚ) * (5/100)))
    ∧ round2 (min ((95:ℚ)/100) (6/10 + (k:ℚ) * (5/100))) ≤ 95/100 := by
  have hk1 : (1:ℚ) ≤ (k:ℚ) := by exact_mod_cast hk
  by_cases h7 : 7 ≤ k
  · have h7q : (7:ℚ) ≤ (k:ℚ) := by exact_mod_cast h7
    have hmin : min ((95:ℚ)/100) (6/10 + (k:ℚ) * (5/100)) = 95/100 :=
      min_eq_left (by nlinarith)
    have h95 := round2_natCast_div100 95
    push_cast at h95
    rw [hmin, h95]
    norm_num
  · have h6q : (k:ℚ) ≤ 6 := by exact_mod_cast (by omega : k ≤ 6)
    have hmin : min ((95:ℚ)/100) (6/10 + (k:ℚ) * (5/100))
        = 6/10 + (k:ℚ) * (5/100) :=
      min_eq_right (by nlinarith)
    have heq : (6:ℚ)/10 + (k:ℚ) * (5/100) = ((60 + 5*k : ℕ):ℚ)/100 := by
      push_cast
      ring
    rw [hmin, heq, round2_natCast_div100]
    push_cast
    constructor <;> linarith

/-- C9: every successful response of the route has a document_type among
the 15 static rule-set categories or `"others"`, and a confidence in
`{0.50, 0.55} ∪ [0.65, 0.95]`; a matched category (anything other than
`"others"`) yields a confidence of at least `0.65`. -/
theorem response_invariants (w : RouteWorld) (t : String) (c : ℚ)
    (r : QReport)
    (h : (classify w).response = Response.success t c r) :
    (t = "others" ∨ t ∈ rules.map Prod.fst)
    ∧ (c = 50/100 ∨ c = 55/100 ∨ ((65:ℚ)/100 ≤ c ∧ c ≤ 95/100))
    ∧ (t ≠ "others" → (65:ℚ)/100 ≤ c)
    ∧ rules.length = 15 := by
  by_cases h1 : w.hasFile = false
  · simp [classify, routeWith, h1] at h
  by_cases h2 : w.saveOk = false
  · simp [classify, routeWith, h1, h2] at h
  by_cases h3 : stripIsEmpty w.extracted = true
  · simp [classify, routeWith, h1, h2, h3] at h
    obtain ⟨rfl, rfl, rfl⟩ := h
    exact ⟨Or.inl rfl, Or.inl rfl, by intro hne; exact absurd rfl hne, rfl⟩
  · simp [classify, routeWith, h1, h2, h3] at h
    obtain ⟨ht, hc, hr⟩ := h
    by_cases hb : (bestCategory w.extracted).2 = 0
    · have hcb : classify_by_content w.extracted = ("others", 55/100) := by
        unfold classify_by_content
        simp [hb]
      rw [hcb] at ht hc
      have h55 := round2_natCast_div100 55
      push_cast at h55
      rw [show (("others", (55:ℚ)/100).2 : ℚ) = 55/100 from rfl, h55] at hc
      rw [show ("others", (55:ℚ)/100).1 = "others" from rfl] at ht
      subst ht
      subst hc
      exact ⟨Or.inl rfl, Or.inr (Or.inl rfl),
        by intro hne; exact absurd rfl hne, rfl⟩
    · have hcb : classify_by_content w.extracted
          = ((bestCategory w.extracted).1,
             min ((95:ℚ)/100)
               (6/10 + ((bestCategory w.extracted).2 : ℚ) * (5/100))) := by
        unfold classify_by_content
        simp [hb]
      rw [hcb] at ht hc
      rw [show ((bestCategory w.extracted).1,
            min ((95:ℚ)/100)
              (6/10 + ((bestCategory w.extracted).2 : ℚ) * (5/100))).1
          = (bestCategory w.extracted).1 from rfl] at ht
      rw [show ((bestCategory w.extracted).1,
            min ((95:ℚ)/100)
              (6/10 + ((bestCategory w.extracted).2 : ℚ) * (5/100))).2
          = min ((95:ℚ)/100)
              (6/10 + ((bestCategory w.extracted).2 : ℚ) * (5/100)) from rfl] at hc
      subst ht
      subst hc
      have hmem : (bestCategory w.extracted).1 ∈ rules.map Prod.fst := by
        obtain ⟨p, hp, hpe⟩ := List.mem_map.mp (bestCategory_mem _ hb)
        exact List.mem_map.mpr ⟨p, hp, congrArg Prod.fst hpe⟩
      have hbounds := round2_conf_bounds (bestCategory w.extracted).2
        (by omega)
      exact ⟨Or.inr hmem, Or.inr (Or.inr hbounds),
        fun _ => hbounds.1, rfl⟩

/-- Witness for C9 at a plain-text request whose text `"education"`
matches the resume category once, giving confidence `0.65`. -/
theorem response_invariants_witness :
    ("resume" = "others" ∨ "resume" ∈ rules.map Prod.fst)
    ∧ ((65:ℚ)/100 = 50/100 ∨ (65:ℚ)/100 = 55/100
        ∨ ((65:ℚ)/100 ≤ (65:ℚ)/100 ∧ (65:ℚ)/100 ≤ 95/100))
    ∧ ("resume" ≠ "others" → (65:ℚ)/100 ≤ (65:ℚ)/100)
    ∧ rules.length = 15 :=
  response_invariants ⟨true, ".txt", true, true, notImageReport, "education"⟩
    "resume" ((65:ℚ)/100) notImageReport
    (by
      have hbc : bestCategory "education" = ("resume", 1) := by decide
      have hcb : classify_by_content "education" = ("resume", 65/100) := by
        unfold classify_by_content
        rw [hbc]
        norm_num
      have hstrip : stripIsEmpty "education" = false := by decide
      have h65 := round2_natCast_div100 65
      push_cast at h65
      simp [classify, routeWith, hstrip, hcb, h65, effectiveReport,
        isImageExt, notImageReport])

end App
